import Mathlib

/-!
Verification of the Xilinx ISE toolchain module (`migen/build/xilinx/ise.py`).

The module is shallowly embedded as follows.

* Pure string-building code is translated to pure Lean functions with the
  source names (`_format_constraint`, `_format_ucf`, `_build_ucf`,
  `_build_xst_files`, `_run_yosys`, `_run_ise`, `XilinxISEToolchain.build`).
* Python exceptions are modelled with `Except Err`: an `IndexError` coming
  from indexing `[0]` into an empty sequence is `Err.indexError`, the
  `OSError("Subprocess failed")` raised on a non-zero subprocess exit status
  is `Err.oserror`, and a failure of `str.format` (`KeyError`/`ValueError`)
  is `Err.formatError`.
* Side effects are modelled with an explicit `World` record threaded through
  the effectful functions: the process working directory (`os.getcwd` /
  `os.chdir`), the ordered list of files written (`tools.write_to_file`) and
  the ordered list of subprocess invocations (`subprocess.call`).  The exit
  status of an external process is supplied by an oracle
  `exitf : List String → Int` mapping the argument vector to the status.
* `str.format` with keyword arguments, which the source applies to the
  accumulated build-script template and to the user-supplied
  `ise_commands` template, is modelled by the scanner `pyFmt`:
  replacement fields are plain `\x7bname\x7d` fields (the only form the
  toolchain uses; the format-spec mini-language `:`/`!` is not modelled),
  doubled braces are escapes, substituted values are not re-scanned, and a
  lone brace or an unknown key is a format error, as in Python.
-/

set_option maxRecDepth 16000

namespace MigenIse

/-- The Python exceptions this module can raise, see the module docstring. -/
inductive Err where
  | oserror : Err
  | indexError : Err
  | formatError : Err
deriving DecidableEq

deriving instance DecidableEq for Except

/-! ### A model of Python `str.format` with keyword arguments -/

def lbrace : Char := '\x7b'

def rbrace : Char := '\x7d'

/-- Keyword-argument lookup for `str.format`. -/
def lookupKey (env : List (String × String)) (k : String) : Option String :=
  (env.find? (fun e => e.1 == k)).map (fun e => e.2)

/-- Scanner state for `pyFmtGo`: outside a field, just after an opening
brace, just after a closing brace, or inside a replacement-field name. -/
inductive FmtSt where
  | norm : FmtSt
  | sawL : FmtSt
  | sawR : FmtSt
  | key : FmtSt
deriving DecidableEq

/-- One-character-at-a-time scanner for `str.format`.  `kacc` accumulates the
current field name in reverse.  Doubled braces are escapes; a lone closing
brace, an unterminated field, a nested opening brace inside a field, or an
unknown field name yields `none` (Python raises `ValueError`/`KeyError`).
Substituted values are spliced into the output without being re-scanned,
exactly as in Python. -/
def pyFmtGo (env : List (String × String)) (l : List Char) (st : FmtSt) (kacc : List Char) :
    Option (List Char) :=
  match l with
  | [] => match st with
    | .norm => some []
    | _ => none
  | c :: cs =>
    match st with
    | .norm =>
      if c = lbrace then pyFmtGo env cs .sawL []
      else if c = rbrace then pyFmtGo env cs .sawR []
      else (pyFmtGo env cs .norm []).map (fun r => c :: r)
    | .sawL =>
      if c = lbrace then (pyFmtGo env cs .norm []).map (fun r => lbrace :: r)
      else if c = rbrace then
        match lookupKey env "" with
        | none => none
        | some v => (pyFmtGo env cs .norm []).map (fun r => v.data ++ r)
      else pyFmtGo env cs .key [c]
    | .sawR =>
      if c = rbrace then (pyFmtGo env cs .norm []).map (fun r => rbrace :: r)
      else none
    | .key =>
      if c = rbrace then
        match lookupKey env (String.mk kacc.reverse) with
        | none => none
        | some v => (pyFmtGo env cs .norm []).map (fun r => v.data ++ r)
      else if c = lbrace then none
      else pyFmtGo env cs .key (c :: kacc)

/-- `s.format(**env)`: `some` result, or `none` when Python would raise. -/
def pyFmt (s : String) (env : List (String × String)) : Option String :=
  (pyFmtGo env s.data .norm []).map (fun l => String.mk l)

/-- A template segment: a literal run of characters or a replacement field.
Proof infrastructure for reasoning about `pyFmt` on the concrete templates
of the module. -/
inductive Seg where
  | lit (cl : List Char) : Seg
  | field (k : String) : Seg
deriving DecidableEq

/-- The template text denoted by one segment. -/
def segTpl : Seg → List Char
  | .lit cl => cl
  | .field k => lbrace :: (k.data ++ [rbrace])

/-- The template text denoted by a segment list. -/
def segsTpl : List Seg → List Char
  | [] => []
  | s :: rest => segTpl s ++ segsTpl rest

/-- The characters a segment contributes to the formatted output. -/
def segData (env : List (String × String)) : Seg → List Char
  | .lit cl => cl
  | .field k => ((lookupKey env k).getD "").data

/-- The formatted output of a segment list. -/
def render (env : List (String × String)) : List Seg → List Char
  | [] => []
  | s :: rest => segData env s ++ render env rest

/-- A segment the scanner processes without failing: a brace-free literal,
or a nonempty brace-free field name bound in the environment. -/
def segOk (env : List (String × String)) : Seg → Prop
  | .lit cl => ∀ c ∈ cl, c ≠ lbrace ∧ c ≠ rbrace
  | .field k => k ≠ "" ∧ (∀ c ∈ k.data, c ≠ lbrace ∧ c ≠ rbrace) ∧ (lookupKey env k).isSome

/-- `true` iff the string contains no brace character. -/
def braceFree (s : String) : Bool := s.data.all (fun c => c != lbrace && c != rbrace)

/-- The decidable check behind `segOk`. -/
def segsOkB (env : List (String × String)) (segs : List Seg) : Bool :=
  segs.all (fun s =>
    match s with
    | .lit cl => cl.all (fun c => c != lbrace && c != rbrace)
    | .field k => !(k == "") && braceFree k && (lookupKey env k).isSome)

/-- `sub` occurs as a contiguous run inside the list. -/
def subList (sub : List Char) : List Char → Bool
  | [] => sub.isEmpty
  | c :: t => sub.isPrefixOf (c :: t) || subList sub t

/-- `needle` occurs as a substring of `s`. -/
def strContains (s needle : String) : Bool := subList needle.data s.data

/-- Python `sep.join(l)`. -/
def pyJoin (sep : String) : List String → String
  | [] => ""
  | [x] => x
  | x :: y :: xs => x ++ sep ++ pyJoin sep (y :: xs)

/-- Concatenation of a list of strings (`r += piece` accumulation). -/
def strConcat : List String → String
  | [] => ""
  | s :: rest => s ++ strConcat rest

/-- Number of newline characters in a string; a rendered constraint line
contributes exactly one. -/
def countNl (s : String) : Nat := s.data.count '\n'

/-! ### The constraint data model

Modelled from the spec: the constraint classes `Pins`, `IOStandard`,
`Drive` and `Misc` are declared in `migen.build.generic_platform`, which is
not under `src/`; the spec describes them as a tagged variant
`Placement / ElectricalStandard / DriveStrength / Raw` with the fields used
below.  The extra constructor `other` stands for an instance of any other
(unrecognized) constraint class, for which the `isinstance` chain in
`_format_constraint` falls through and Python implicitly returns `None`. -/
inductive Constraint where
  | pins (identifiers : List String) : Constraint
  | iostandard (name : String) : Constraint
  | drive (strength : Int) : Constraint
  | misc (misc : String) : Constraint
  | other : Constraint
deriving DecidableEq

/-- `(kind, index, optional subsignal)`, the `resname` triples. -/
abbrev Resname := String × Int × Option String

/-- One named signal constraint `(sig, pins, others, resname)` as iterated
by `_build_ucf`. -/
structure NamedSC where
  sig : String
  pins : List String
  others : List Constraint
  resname : Resname
deriving DecidableEq

/-- `_format_constraint(c)` (ise.py lines 11-19).  `Pins` renders as
`LOC=` followed by the first identifier — indexing an empty identifier list
raises `IndexError`.  An unrecognized variant renders as `None`. -/
def _format_constraint : Constraint → Except Err (Option String)
  | .pins ids =>
    match ids with
    | [] => .error .indexError
    | i :: _ => .ok (some ("LOC=" ++ i))
  | .iostandard n => .ok (some ("IOSTANDARD=" ++ n))
  | .drive s => .ok (some ("DRIVE=" ++ toString s))
  | .misc m => .ok (some m)
  | .other => .ok none

/-- The token-collection loop of `_format_ucf` (ise.py lines 23-27):
format each constraint in order and keep the non-`None` results. -/
def fmtTokens : List Constraint → Except Err (List String)
  | [] => .ok []
  | c :: cs =>
    match _format_constraint c with
    | .error e => .error e
    | .ok none => fmtTokens cs
    | .ok (some t) =>
      match fmtTokens cs with
      | .error e => .error e
      | .ok ts => .ok (t :: ts)

/-- `fmt_r` of `_format_ucf` (ise.py lines 28-30). -/
def fmtResname (res : Resname) : String :=
  res.1 ++ ":" ++ toString res.2.1 ++
    (match res.2.2 with
     | some sub => "." ++ sub
     | none => "")

/-- `_format_ucf(signame, pin, others, resname)` (ise.py lines 22-31). -/
def _format_ucf (signame pin : String) (others : List Constraint) (resname : Resname) :
    Except Err String :=
  match fmtTokens (.pins [pin] :: others) with
  | .error e => .error e
  | .ok fmt_c =>
    .ok ("NET \"" ++ signame ++ "\" " ++ pyJoin " | " fmt_c ++ "; # " ++ fmtResname resname ++ "\n")

/-- The inner `for i, p in enumerate(pins)` loop of `_build_ucf`
(ise.py lines 38-39), starting at index `i`. -/
def ucfBits (sig : String) (others : List Constraint) (res : Resname) :
    Nat → List String → Except Err String
  | _, [] => .ok ""
  | i, p :: ps =>
    match _format_ucf (sig ++ "(" ++ toString i ++ ")") p others res with
    | .error e => .error e
    | .ok line =>
      match ucfBits sig others res (i + 1) ps with
      | .error e => .error e
      | .ok r => .ok (line ++ r)

/-- One iteration of the `for sig, pins, others, resname in named_sc` loop
(ise.py lines 36-41): width > 1 expands per bit, otherwise the sole pin
`pins[0]` is used (`IndexError` when `pins` is empty). -/
def ucfEntry (e : NamedSC) : Except Err String :=
  if 1 < e.pins.length then ucfBits e.sig e.others e.resname 0 e.pins
  else
    match e.pins with
    | [] => .error .indexError
    | p :: _ => _format_ucf e.sig p e.others e.resname

/-- The whole signal-constraint loop of `_build_ucf`. -/
def ucfAll : List NamedSC → Except Err String
  | [] => .ok ""
  | e :: rest =>
    match ucfEntry e with
    | .error er => .error er
    | .ok line =>
      match ucfAll rest with
      | .error er => .error er
      | .ok r => .ok (line ++ r)

/-- `_build_ucf(named_sc, named_pc)` (ise.py lines 34-44). -/
def _build_ucf (named_sc : List NamedSC) (named_pc : List String) : Except Err String :=
  match ucfAll named_sc with
  | .error e => .error e
  | .ok r =>
    .ok (match named_pc with
         | [] => r
         | _ => r ++ "\n" ++ pyJoin "\n\n" named_pc)

/-! ### The effect model -/

/-- The observable state: process working directory, ordered file writes and
ordered subprocess invocations. -/
structure World where
  cwd : String
  files : List (String × String)
  calls : List (List String)
deriving DecidableEq

/-- `tools.write_to_file(name, contents)` (an external file utility;
modelled as appending to the write trace). -/
def writeToFile (name contents : String) (w : World) : World :=
  { w with files := w.files ++ [(name, contents)] }

/-- `subprocess.call(cmd)`: records the argument vector and returns the
status produced by the oracle. -/
def subprocessCall (exitf : List String → Int) (cmd : List String) (w : World) : Int × World :=
  (exitf cmd, { w with calls := w.calls ++ [cmd] })

/-- `os.chdir(p)`.  Directory names are abstract: the working directory
simply becomes the argument (restoring a saved `os.getcwd()` value then
yields the original directory). -/
def chdir (p : String) (w : World) : World := { w with cwd := p }

/-- `tools.mkdir_noerror` creates the build directory; it has no effect on
any state observed by this model. -/
def mkdirNoerror (_d : String) (w : World) : World := w

/-- One build source `(filename, language, library)`. -/
abbrev Source := String × String × String

/-! ### `_build_xst_files` and `_run_yosys` -/

/-- The `xst_contents` template of `_build_xst_files` (ise.py lines 53-59). -/
def xstTpl : String :=
  "run\n-ifn {build_name}.prj\n-top top\n{xst_opt}\n-ofn {build_name}.ngc\n-p {device}\n"

/-- `_build_xst_files(device, sources, vincpaths, build_name, xst_opt)`
(ise.py lines 47-62): writes the `.prj` manifest and the `.xst` run script. -/
def _build_xst_files (device : String) (sources : List Source) (vincpaths : List String)
    (build_name xst_opt : String) (w : World) : Except Err Unit × World :=
  let prj_contents := sources.foldl (fun a s => a ++ s.2.1 ++ " " ++ s.2.2 ++ " " ++ s.1 ++ "\n") ""
  let w := writeToFile (build_name ++ ".prj") prj_contents w
  match pyFmt xstTpl [("build_name", build_name), ("xst_opt", xst_opt), ("device", device)] with
  | none => (.error .formatError, w)
  | some s =>
    let xst_contents := vincpaths.foldl (fun a p => a ++ "-vlgincdir " ++ p ++ "\n") s
    (.ok (), writeToFile (build_name ++ ".xst") xst_contents w)

/-- The `ys_contents` script of `_run_yosys` (ise.py lines 66-75).  The
per-source `str.format` calls have all-literal templates, so they are plain
interpolation. -/
def ysContents (sources : List Source) (vincpaths : List String) (build_name : String) : String :=
  let incflags := vincpaths.foldl (fun a p => a ++ " -I" ++ p) ""
  let reads := sources.foldl (fun a s => a ++ "read_" ++ s.2.1 ++ incflags ++ " " ++ s.1 ++ "\n") ""
  reads ++ "hierarchy -check -top top\nproc; memory; opt; fsm; opt\nsynth_xilinx -top top -edif "
    ++ build_name ++ ".edif"

/-- `_run_yosys(device, sources, vincpaths, build_name)` (ise.py lines
65-81): write the `.ys` script, invoke yosys, and raise `OSError` on a
non-zero exit status. -/
def _run_yosys (exitf : List String → Int) (_device : String) (sources : List Source)
    (vincpaths : List String) (build_name : String) (w : World) : Except Err Unit × World :=
  let ys_name := build_name ++ ".ys"
  let w := writeToFile ys_name (ysContents sources vincpaths build_name) w
  let rw := subprocessCall exitf ["yosys", ys_name] w
  (if rw.1 ≠ 0 then .error .oserror else .ok (), rw.2)

/-! ### `_run_ise` -/

/-- Whether the host platform uses batch scripting (ise.py line 86). -/
def scriptWin (plat : String) : Bool := plat == "win32" || plat == "cygwin"

def sourceCmd (plat : String) : String := if scriptWin plat then "call " else "source "

def scriptExt (plat : String) : String := if scriptWin plat then ".bat" else ".sh"

def shellOf (plat : String) : List String := if scriptWin plat then ["cmd", "/c"] else ["bash"]

def scriptHdr (plat : String) : String :=
  if scriptWin plat then "@echo off\nrem Autogenerated by Migen\n"
  else "# Autogenerated by Migen\nset -e\n"

/-- Modelled from the spec: `common.settings` lives in
`migen.build.xilinx.common`, which is not under `src/`.  The spec describes
it only as the environment-settings collaborator, "given a base path and
version and returning a command string", so the exact text is a simple
function of those inputs. -/
def common_settings (path : String) (ver : Option String) (sub : String) : String :=
  path ++ "/" ++ (match ver with | some v => v ++ "/" | none => "") ++ sub ++ "/settings64.sh"

/-- The synthesis-stage chunk appended when the mode is not `"edif"`
(ise.py lines 103-105). -/
def xstChunkTpl : String := "\nxst -ifn {build_name}.xst\n"

/-- The fixed translate / map / place-and-route / bitstream chunk
(ise.py lines 107-112). -/
def stageTpl : String :=
  "\nngdbuild {ngdbuild_opt} -uc {build_name}.ucf {build_name}.{ext} {build_name}.ngd\nmap {map_opt} -o {build_name}_map.ncd {build_name}.ngd {build_name}.pcf\npar {par_opt} {build_name}_map.ncd {build_name}.ncd {build_name}.pcf\nbitgen {bitgen_opt} {build_name}.ncd {build_name}.bit\n"

/-- Segmentation of `xstChunkTpl` (proved below in `xst_decomp`). -/
def xstSegs : List Seg :=
  [.lit "\nxst -ifn ".data, .field "build_name", .lit ".xst\n".data]

/-- Segmentation of `stageTpl` (proved below in `stage_decomp`). -/
def stageSegs : List Seg :=
  [.lit "\nngdbuild ".data, .field "ngdbuild_opt", .lit " -uc ".data, .field "build_name",
   .lit ".ucf ".data, .field "build_name", .lit ".".data, .field "ext", .lit " ".data,
   .field "build_name", .lit ".ngd\nmap ".data, .field "map_opt", .lit " -o ".data,
   .field "build_name", .lit "_map.ncd ".data, .field "build_name", .lit ".ngd ".data,
   .field "build_name", .lit ".pcf\npar ".data, .field "par_opt", .lit " ".data,
   .field "build_name", .lit "_map.ncd ".data, .field "build_name", .lit ".ncd ".data,
   .field "build_name", .lit ".pcf\nbitgen ".data, .field "bitgen_opt", .lit " ".data,
   .field "build_name", .lit ".ncd ".data, .field "build_name", .lit ".bit\n".data]

/-- The build-script generation part of `_run_ise` (ise.py lines 86-116):
accumulate header, optional environment-sourcing line, optional synthesis
chunk and the fixed stage chunk, apply `str.format` to the whole
accumulated string, then append the separately formatted `ise_commands`. -/
def mkBuildScript (plat build_name ise_path : String) (source : Bool) (mode : String)
    (ngdbuild_opt bitgen_opt ise_commands map_opt par_opt : String) (ver : Option String) :
    Except Err String :=
  let pre := scriptHdr plat
    ++ (if source then sourceCmd plat ++ common_settings ise_path ver "ISE_DS" ++ "\n" else "")
    ++ (if mode = "edif" then "" else xstChunkTpl)
    ++ stageTpl
  let ext := if mode = "edif" then "edif" else "ngc"
  match pyFmt pre [("build_name", build_name), ("ngdbuild_opt", ngdbuild_opt),
      ("bitgen_opt", bitgen_opt), ("ext", ext), ("par_opt", par_opt), ("map_opt", map_opt)] with
  | none => .error .formatError
  | some body =>
    match pyFmt ise_commands [("build_name", build_name)] with
    | none => .error .formatError
    | some tail => .ok (body ++ tail)

/-- `_run_ise(build_name, ise_path, source, mode, ...)` (ise.py lines
84-122): write the build script, invoke it through the platform shell, and
raise `OSError` on a non-zero exit status. -/
def _run_ise (exitf : List String → Int) (plat : String) (build_name ise_path : String)
    (source : Bool) (mode : String) (ngdbuild_opt bitgen_opt ise_commands map_opt par_opt : String)
    (ver : Option String) (w : World) : Except Err Unit × World :=
  match mkBuildScript plat build_name ise_path source mode ngdbuild_opt bitgen_opt
      ise_commands map_opt par_opt ver with
  | .error e => (.error e, w)
  | .ok contents =>
    let build_script_file := "build_" ++ build_name ++ scriptExt plat
    let w := writeToFile build_script_file contents w
    let rw := subprocessCall exitf (shellOf plat ++ [build_script_file]) w
    (if rw.1 ≠ 0 then .error .oserror else .ok (), rw.2)

/-! ### The toolchain orchestrator -/

/-- The four build modes handled by `XilinxISEToolchain.build` (the source
selects on the strings `"xst"`, `"yosys"`, `"edif"`, `"mist"`). -/
inductive Mode where
  | xst : Mode
  | yosys : Mode
  | edif : Mode
  | mist : Mode
deriving DecidableEq

/-- Modelled from the spec: the platform / design-compiler collaborators
(`migen.build.generic_platform` and the fhdl backends are not under
`src/`).  `get_verilog` and `get_edif` return the output artifact as a
name-resolution table (abstract type `NS`) plus the rendered text, and
`resolve_signals` maps a name table to the named signal constraints and
already-rendered platform commands.  `platform.finalize` and
`mist.synthesize` touch none of the state observed by this model. -/
structure Platform (NS : Type) where
  device : String
  sources : List Source
  verilog_include_paths : List String
  get_verilog : NS × String
  get_edif : NS × String
  resolve_signals : NS → List NamedSC × List String

/-- The union `platform.sources | {(v_file, "verilog", "work")}` on the list
model of the source set. -/
def unionSources (l : List Source) (x : Source) : List Source :=
  if x ∈ l then l else l ++ [x]

/-- A small concrete platform instance used as the collaborator input in
the witnesses. -/
def demoPlatform : Platform Unit where
  device := "xc7a35t"
  sources := []
  verilog_include_paths := []
  get_verilog := ((), "module top();\nendmodule\n")
  get_edif := ((), "(edif top)")
  resolve_signals := fun _ => ([⟨"clk", ["P17"], [], ("cmp", 0, none)⟩], [])

/-- An exit-status oracle that fails exactly the yosys invocation for the
build name `top`. -/
def exitYosysFail : List String → Int :=
  fun c => if c = ["yosys", "top.ys"] then 1 else 0

/-- The configurable option fields set by `XilinxISEToolchain.__init__`
(ise.py lines 125-135). -/
structure XilinxISEToolchain where
  xst_opt : String
  map_opt : String
  par_opt : String
  ngdbuild_opt : String
  bitgen_opt : String
  ise_commands : String
deriving DecidableEq

/-- The defaults assigned by `__init__` (ise.py lines 126-135). -/
def XilinxISEToolchain.new : XilinxISEToolchain where
  xst_opt := "-ifmt MIXED\n-use_new_parser yes\n-opt_mode SPEED\n-register_balancing yes"
  map_opt := "-ol high -w"
  par_opt := "-ol high -w"
  ngdbuild_opt := ""
  bitgen_opt := "-g Binary:Yes -w"
  ise_commands := ""

/-- The common tail of `build` (ise.py lines 186-190): write the `.ucf`
constraint file, then, when `run` is set, generate and execute the ISE
build script. -/
def ucfAndRun {NS : Type} (self : XilinxISEToolchain) (exitf : List String → Int) (plat : String)
    (build_name tp : String) (src run : Bool) (isemode : String) (ngdbuild_opt : String)
    (vns : Option NS) (named : List NamedSC × List String) (w : World) :
    Except Err (Option NS) × World :=
  match _build_ucf named.1 named.2 with
  | .error e => (.error e, w)
  | .ok u =>
    let w := writeToFile (build_name ++ ".ucf") u w
    if run then
      let rw := _run_ise exitf plat build_name tp src isemode ngdbuild_opt self.bitgen_opt
        self.ise_commands self.map_opt self.par_opt none w
      (rw.1.map (fun _ => vns), rw.2)
    else (.ok vns, w)

/-- The `mode == "edif" or mode == "mist"` branch of `build` (ise.py lines
178-184) followed by the common tail. -/
def edifTail {NS : Type} (self : XilinxISEToolchain) (exitf : List String → Int) (plat : String)
    (platform : Platform NS) (build_name tp : String) (src run : Bool) (w : World) :
    Except Err (Option NS) × World :=
  let eo := platform.get_edif
  let named := platform.resolve_signals eo.1
  let e_file := build_name ++ ".edif"
  let w := writeToFile e_file eo.2 w
  ucfAndRun self exitf plat build_name tp src run "edif" self.ngdbuild_opt (some eo.1) named w

/-- The body of `build` inside the working-directory scope (ise.py lines
159-190), dispatching on the mode. -/
def buildBody {NS : Type} (self : XilinxISEToolchain) (exitf : List String → Int) (plat : String)
    (platform : Platform NS) (build_name tp : String) (src run : Bool) (mode : Mode)
    (w : World) : Except Err (Option NS) × World :=
  match mode with
  | .xst =>
    let vo := platform.get_verilog
    let named := platform.resolve_signals vo.1
    let v_file := build_name ++ ".v"
    let w := writeToFile v_file vo.2 w
    let sources := unionSources platform.sources (v_file, "verilog", "work")
    let xw := _build_xst_files platform.device sources platform.verilog_include_paths build_name
      self.xst_opt w
    match xw.1 with
    | .error e => (.error e, xw.2)
    | .ok _ =>
      ucfAndRun self exitf plat build_name tp src run "xst" self.ngdbuild_opt (some vo.1) named xw.2
  | .yosys =>
    let vo := platform.get_verilog
    let named := platform.resolve_signals vo.1
    let v_file := build_name ++ ".v"
    let w := writeToFile v_file vo.2 w
    let sources := unionSources platform.sources (v_file, "verilog", "work")
    let yw := _run_yosys exitf platform.device sources platform.verilog_include_paths build_name w
    match yw.1 with
    | .error e => (.error e, yw.2)
    | .ok _ =>
      ucfAndRun self exitf plat build_name tp src run "edif"
        (self.ngdbuild_opt ++ "-p " ++ platform.device) (some vo.1) named yw.2
  | .edif => edifTail self exitf plat platform build_name tp src run w
  | .mist => edifTail self exitf plat platform build_name tp src run w

/-- `XilinxISEToolchain.build` (ise.py lines 137-194).  Default resolution
for `toolchain_path` and `source` follows `sys.platform` (the `plat`
argument); the working-directory scope is the `try/finally` of the source:
the original directory is restored on every exit path.  The configuration
object is returned alongside the result, mirroring that the method never
assigns to `self`. -/
def XilinxISEToolchain.build {NS : Type} (self : XilinxISEToolchain)
    (exitf : List String → Int) (plat : String) (platform : Platform NS)
    (build_dir build_name : String) (toolchain_path : Option String) (source : Option Bool)
    (run : Bool) (mode : Mode) (w : World) :
    Except Err (Option NS) × XilinxISEToolchain × World :=
  let tp := match toolchain_path with
    | some t => t
    | none =>
      if plat = "win32" then "C:\\Xilinx"
      else if plat = "cygwin" then "/cygdrive/c/Xilinx"
      else "/opt/Xilinx"
  let src := match source with
    | some s => s
    | none => plat != "win32"
  let cwd := w.cwd
  let w1 := chdir build_dir (mkdirNoerror build_dir w)
  let p := buildBody self exitf plat platform build_name tp src run mode w1
  (p.1, self, chdir cwd p.2)

/-! ### Lemmas about the `str.format` scanner -/

theorem strDataInj {a b : String} (h : a.data = b.data) : a = b := by
  cases a with
  | mk d1 =>
    cases b with
    | mk d2 =>
      have h2 : d1 = d2 := by simpa using h
      rw [h2]

theorem strEta (s : String) : String.mk s.data = s := by cases s; rfl

theorem braceFree_mem {s : String} (h : braceFree s = true) :
    ∀ c ∈ s.data, c ≠ lbrace ∧ c ≠ rbrace := by
  intro c hc
  have h2 := List.all_eq_true.mp h c hc
  simpa using h2

theorem pyFmtGo_lit (env : List (String × String)) (X : List Char) :
    ∀ (rest : List Char), (∀ c ∈ X, c ≠ lbrace ∧ c ≠ rbrace) →
      pyFmtGo env (X ++ rest) .norm [] = (pyFmtGo env rest .norm []).map (fun r => X ++ r) := by
  induction X with
  | nil =>
    intro rest _
    cases hr : pyFmtGo env rest .norm [] <;> simp [hr]
  | cons c cs ih =>
    intro rest h
    have hc := h c (List.mem_cons_self c cs)
    have hstep : pyFmtGo env (c :: (cs ++ rest)) .norm [] =
        (if c = lbrace then pyFmtGo env (cs ++ rest) .sawL []
         else if c = rbrace then pyFmtGo env (cs ++ rest) .sawR []
         else (pyFmtGo env (cs ++ rest) .norm []).map (fun r => c :: r)) := rfl
    rw [List.cons_append, hstep, if_neg hc.1, if_neg hc.2,
      ih rest (fun x hx => h x (List.mem_cons_of_mem c hx))]
    cases pyFmtGo env rest .norm [] <;> simp

theorem pyFmtGo_keyscan (env : List (String × String)) (kd : List Char) :
    ∀ (rest acc : List Char), (∀ c ∈ kd, c ≠ lbrace ∧ c ≠ rbrace) →
      pyFmtGo env (kd ++ rbrace :: rest) .key acc =
        (match lookupKey env (String.mk (acc.reverse ++ kd)) with
         | none => none
         | some v => (pyFmtGo env rest .norm []).map (fun r => v.data ++ r)) := by
  induction kd with
  | nil =>
    intro rest acc _
    have hstep : pyFmtGo env (rbrace :: rest) .key acc =
        (match lookupKey env (String.mk acc.reverse) with
         | none => none
         | some v => (pyFmtGo env rest .norm []).map (fun r => v.data ++ r)) := rfl
    simpa using hstep
  | cons c kd ih =>
    intro rest acc h
    have hc := h c (List.mem_cons_self c kd)
    have hstep : pyFmtGo env (c :: (kd ++ rbrace :: rest)) .key acc =
        (if c = rbrace then
          (match lookupKey env (String.mk acc.reverse) with
           | none => none
           | some v => (pyFmtGo env (kd ++ rbrace :: rest) .norm []).map (fun r => v.data ++ r))
         else if c = lbrace then none
         else pyFmtGo env (kd ++ rbrace :: rest) .key (c :: acc)) := rfl
    rw [List.cons_append, hstep, if_neg hc.2, if_neg hc.1,
      ih rest (c :: acc) (fun x hx => h x (List.mem_cons_of_mem c hx))]
    simp

theorem pyFmtGo_field (env : List (String × String)) (k : String) (rest : List Char)
    (hok : segOk env (.field k)) :
    pyFmtGo env ((lbrace :: (k.data ++ [rbrace])) ++ rest) .norm [] =
      (pyFmtGo env rest .norm []).map (fun r => ((lookupKey env k).getD "").data ++ r) := by
  obtain ⟨hne, hk, hsome⟩ := hok
  obtain ⟨v, hv⟩ := Option.isSome_iff_exists.mp hsome
  obtain ⟨kc, kd, hkd⟩ : ∃ kc kd, k.data = kc :: kd := by
    cases hd : k.data with
    | nil => exact absurd (strDataInj (by simp [hd])) hne
    | cons kc kd => exact ⟨kc, kd, rfl⟩
  have hkc := hk kc (by rw [hkd]; exact List.mem_cons_self kc kd)
  have hkdm : ∀ c ∈ kd, c ≠ lbrace ∧ c ≠ rbrace := fun c hc =>
    hk c (by rw [hkd]; exact List.mem_cons_of_mem kc hc)
  have h1 : pyFmtGo env ((lbrace :: (k.data ++ [rbrace])) ++ rest) .norm [] =
      pyFmtGo env (k.data ++ ([rbrace] ++ rest)) .sawL [] := by
    rw [List.cons_append, List.append_assoc]
    rfl
  have h2 : pyFmtGo env (k.data ++ ([rbrace] ++ rest)) .sawL [] =
      pyFmtGo env (kd ++ (rbrace :: rest)) .key [kc] := by
    rw [hkd, List.cons_append]
    have hstep : pyFmtGo env (kc :: (kd ++ ([rbrace] ++ rest))) .sawL [] =
        (if kc = lbrace then
          (pyFmtGo env (kd ++ ([rbrace] ++ rest)) .norm []).map (fun r => lbrace :: r)
         else if kc = rbrace then
          (match lookupKey env "" with
           | none => none
           | some v => (pyFmtGo env (kd ++ ([rbrace] ++ rest)) .norm []).map
              (fun r => v.data ++ r))
         else pyFmtGo env (kd ++ ([rbrace] ++ rest)) .key [kc]) := rfl
    rw [hstep, if_neg hkc.1, if_neg hkc.2]
    rfl
  rw [h1, h2, pyFmtGo_keyscan env kd rest [kc] hkdm]
  have hkey : String.mk ([kc].reverse ++ kd) = k := by
    have hl : ([kc].reverse ++ kd : List Char) = k.data := by simp [hkd]
    rw [hl]
  rw [hkey, hv]
  rfl

theorem pyFmtGo_segs (env : List (String × String)) (segs : List Seg) :
    ∀ rest, (∀ s ∈ segs, segOk env s) →
      pyFmtGo env (segsTpl segs ++ rest) .norm [] =
        (pyFmtGo env rest .norm []).map (fun r => render env segs ++ r) := by
  induction segs with
  | nil =>
    intro rest _
    cases hr : pyFmtGo env rest .norm [] <;> simp [segsTpl, render, hr]
  | cons s segs ih =>
    intro rest h
    have hs := h s (List.mem_cons_self s segs)
    have hrest := fun x hx => h x (List.mem_cons_of_mem s hx)
    cases s with
    | lit cl =>
      have hsplit : segsTpl (.lit cl :: segs) ++ rest = cl ++ (segsTpl segs ++ rest) := by
        simp [segsTpl, segTpl, List.append_assoc]
      rw [hsplit, pyFmtGo_lit env cl (segsTpl segs ++ rest) hs, ih rest hrest]
      cases pyFmtGo env rest .norm [] <;> simp [render, segData, List.append_assoc]
    | field k =>
      have hsplit : segsTpl (.field k :: segs) ++ rest =
          (lbrace :: (k.data ++ [rbrace])) ++ (segsTpl segs ++ rest) := by
        simp [segsTpl, segTpl, List.append_assoc]
      rw [hsplit, pyFmtGo_field env k (segsTpl segs ++ rest) hs, ih rest hrest]
      cases pyFmtGo env rest .norm [] <;> simp [render, segData, List.append_assoc]

theorem stage_decomp : segsTpl stageSegs = stageTpl.data := by decide

theorem xst_decomp : segsTpl xstSegs = xstChunkTpl.data := by decide

theorem comb_decomp : segsTpl (xstSegs ++ stageSegs) = xstChunkTpl.data ++ stageTpl.data := by
  decide

theorem mkData (l : List Char) : (String.mk l).data = l := rfl

theorem strDataEmpty : ("" : String).data = [] := rfl

theorem strAppendEmpty (s : String) : s ++ "" = s :=
  strDataInj (by simp [String.data_append, strDataEmpty])

theorem braceFree_append (a b : String) :
    braceFree (a ++ b) = (braceFree a && braceFree b) := by
  simp [braceFree, String.data_append, List.all_append]

theorem scriptHdr_bf (plat : String) : braceFree (scriptHdr plat) = true := by
  unfold scriptHdr
  cases hw : scriptWin plat <;> simp [hw] <;> decide

theorem sourceCmd_bf (plat : String) : braceFree (sourceCmd plat) = true := by
  unfold sourceCmd
  cases hw : scriptWin plat <;> simp [hw] <;> decide

theorem segsOkB_ok {env : List (String × String)} {segs : List Seg}
    (h : segsOkB env segs = true) : ∀ s ∈ segs, segOk env s := by
  intro s hs
  have h2 := List.all_eq_true.mp h s hs
  cases s with
  | lit cl =>
    intro c hc
    have h3 := List.all_eq_true.mp h2 c hc
    simpa using h3
  | field k =>
    simp only [Bool.and_eq_true, Bool.not_eq_true', beq_eq_false_iff_ne] at h2
    exact ⟨h2.1.1, braceFree_mem h2.1.2, h2.2⟩

theorem render_append (env : List (String × String)) (a b : List Seg) :
    render env (a ++ b) = render env a ++ render env b := by
  induction a with
  | nil => simp [render]
  | cons s aa ih => simp [render, ih, List.append_assoc]

theorem pyFmt_two (env : List (String × String)) (a : String) (segs : List Seg)
    (ha : braceFree a = true) (hsegs : ∀ s ∈ segs, segOk env s) :
    pyFmt (a ++ String.mk (segsTpl segs)) env = some (a ++ String.mk (render env segs)) := by
  unfold pyFmt
  have hd : (a ++ String.mk (segsTpl segs)).data = a.data ++ (segsTpl segs ++ []) := by
    simp [String.data_append, mkData]
  rw [hd, pyFmtGo_lit env a.data _ (braceFree_mem ha), pyFmtGo_segs env segs [] hsegs]
  have hnilgo : pyFmtGo env [] .norm [] = some [] := rfl
  rw [hnilgo]
  exact congrArg some (strDataInj (by simp [String.data_append, mkData]))

theorem render_stage (bn nopt bopt ext popt mopt : String) :
    render [("build_name", bn), ("ngdbuild_opt", nopt), ("bitgen_opt", bopt), ("ext", ext),
        ("par_opt", popt), ("map_opt", mopt)] stageSegs =
      "\nngdbuild ".data ++ nopt.data ++ " -uc ".data ++ bn.data ++ ".ucf ".data ++ bn.data
        ++ ".".data ++ ext.data ++ " ".data ++ bn.data ++ ".ngd\nmap ".data ++ mopt.data
        ++ " -o ".data ++ bn.data ++ "_map.ncd ".data ++ bn.data ++ ".ngd ".data ++ bn.data
        ++ ".pcf\npar ".data ++ popt.data ++ " ".data ++ bn.data ++ "_map.ncd ".data
        ++ bn.data ++ ".ncd ".data ++ bn.data ++ ".pcf\nbitgen ".data ++ bopt.data
        ++ " ".data ++ bn.data ++ ".ncd ".data ++ bn.data ++ ".bit\n".data := by
  have h1 : lookupKey [("build_name", bn), ("ngdbuild_opt", nopt), ("bitgen_opt", bopt),
      ("ext", ext), ("par_opt", popt), ("map_opt", mopt)] "build_name" = some bn := rfl
  have h2 : lookupKey [("build_name", bn), ("ngdbuild_opt", nopt), ("bitgen_opt", bopt),
      ("ext", ext), ("par_opt", popt), ("map_opt", mopt)] "ngdbuild_opt" = some nopt := rfl
  have h3 : lookupKey [("build_name", bn), ("ngdbuild_opt", nopt), ("bitgen_opt", bopt),
      ("ext", ext), ("par_opt", popt), ("map_opt", mopt)] "bitgen_opt" = some bopt := rfl
  have h4 : lookupKey [("build_name", bn), ("ngdbuild_opt", nopt), ("bitgen_opt", bopt),
      ("ext", ext), ("par_opt", popt), ("map_opt", mopt)] "ext" = some ext := rfl
  have h5 : lookupKey [("build_name", bn), ("ngdbuild_opt", nopt), ("bitgen_opt", bopt),
      ("ext", ext), ("par_opt", popt), ("map_opt", mopt)] "par_opt" = some popt := rfl
  have h6 : lookupKey [("build_name", bn), ("ngdbuild_opt", nopt), ("bitgen_opt", bopt),
      ("ext", ext), ("par_opt", popt), ("map_opt", mopt)] "map_opt" = some mopt := rfl
  simp [render, segData, stageSegs, h1, h2, h3, h4, h5, h6, List.append_assoc]

theorem render_xst (bn nopt bopt ext popt mopt : String) :
    render [("build_name", bn), ("ngdbuild_opt", nopt), ("bitgen_opt", bopt), ("ext", ext),
        ("par_opt", popt), ("map_opt", mopt)] xstSegs =
      "\nxst -ifn ".data ++ bn.data ++ ".xst\n".data := by
  have h1 : lookupKey [("build_name", bn), ("ngdbuild_opt", nopt), ("bitgen_opt", bopt),
      ("ext", ext), ("par_opt", popt), ("map_opt", mopt)] "build_name" = some bn := rfl
  simp [render, segData, xstSegs, h1, List.append_assoc]

/-- Closed form of the generated ISE build script: header, then the
environment-sourcing line exactly when `source` is set, then the `xst` line
exactly when the mode is not `"edif"`, then the four pipeline stages in
fixed order with their option strings and build-name-derived artifacts, then
the rendered `ise_commands` template. -/
theorem mkBuildScript_eq (plat build_name ise_path : String) (source : Bool) (mode : String)
    (ngdbuild_opt bitgen_opt ise_commands map_opt par_opt : String) (ver : Option String)
    (tail : String)
    (hsettings : source = true → braceFree (common_settings ise_path ver "ISE_DS") = true)
    (htail : pyFmt ise_commands [("build_name", build_name)] = some tail) :
    mkBuildScript plat build_name ise_path source mode ngdbuild_opt bitgen_opt ise_commands
        map_opt par_opt ver =
      .ok (scriptHdr plat
        ++ (if source then sourceCmd plat ++ common_settings ise_path ver "ISE_DS" ++ "\n" else "")
        ++ (if mode = "edif" then "" else "\nxst -ifn " ++ build_name ++ ".xst\n")
        ++ ("\nngdbuild " ++ ngdbuild_opt ++ " -uc " ++ build_name ++ ".ucf " ++ build_name ++ "."
          ++ (if mode = "edif" then "edif" else "ngc") ++ " " ++ build_name ++ ".ngd\nmap "
          ++ map_opt ++ " -o " ++ build_name ++ "_map.ncd " ++ build_name ++ ".ngd " ++ build_name
          ++ ".pcf\npar " ++ par_opt ++ " " ++ build_name ++ "_map.ncd " ++ build_name ++ ".ncd "
          ++ build_name ++ ".pcf\nbitgen " ++ bitgen_opt ++ " " ++ build_name ++ ".ncd "
          ++ build_name ++ ".bit\n")
        ++ tail) := by
  have hnlbf : braceFree "\n" = true := by decide
  cases source with
  | false =>
    by_cases hm : mode = "edif"
    · simp only [mkBuildScript, Bool.false_eq_true, if_false, if_pos hm]
      have hsegs : ∀ s ∈ stageSegs, segOk [("build_name", build_name),
          ("ngdbuild_opt", ngdbuild_opt), ("bitgen_opt", bitgen_opt), ("ext", "edif"),
          ("par_opt", par_opt), ("map_opt", map_opt)] s := segsOkB_ok rfl
      have hnf : ((scriptHdr plat ++ "") ++ "") ++ stageTpl
          = scriptHdr plat ++ String.mk (segsTpl stageSegs) :=
        strDataInj (by simp [String.data_append, mkData, stage_decomp, strDataEmpty])
      rw [hnf, pyFmt_two _ _ _ (scriptHdr_bf plat) hsegs]
      simp only [htail]
      refine congrArg Except.ok (strDataInj ?_)
      simp [String.data_append, mkData, strDataEmpty, render_stage, List.append_assoc]
    · simp only [mkBuildScript, Bool.false_eq_true, if_false, if_neg hm]
      have hsegs : ∀ s ∈ (xstSegs ++ stageSegs), segOk [("build_name", build_name),
          ("ngdbuild_opt", ngdbuild_opt), ("bitgen_opt", bitgen_opt), ("ext", "ngc"),
          ("par_opt", par_opt), ("map_opt", map_opt)] s := segsOkB_ok rfl
      have hnf : ((scriptHdr plat ++ "") ++ xstChunkTpl) ++ stageTpl
          = scriptHdr plat ++ String.mk (segsTpl (xstSegs ++ stageSegs)) :=
        strDataInj (by simp [String.data_append, mkData, comb_decomp, strDataEmpty])
      rw [hnf, pyFmt_two _ _ _ (scriptHdr_bf plat) hsegs]
      simp only [htail]
      refine congrArg Except.ok (strDataInj ?_)
      simp [String.data_append, mkData, strDataEmpty, render_append, render_xst, render_stage,
        List.append_assoc]
  | true =>
    have hbf : braceFree (scriptHdr plat
        ++ (sourceCmd plat ++ common_settings ise_path ver "ISE_DS" ++ "\n")) = true := by
      simp [braceFree_append, scriptHdr_bf, sourceCmd_bf, hsettings rfl, hnlbf]
    by_cases hm : mode = "edif"
    · simp only [mkBuildScript, if_true, if_pos hm]
      have hsegs : ∀ s ∈ stageSegs, segOk [("build_name", build_name),
          ("ngdbuild_opt", ngdbuild_opt), ("bitgen_opt", bitgen_opt), ("ext", "edif"),
          ("par_opt", par_opt), ("map_opt", map_opt)] s := segsOkB_ok rfl
      have hnf : ((scriptHdr plat
            ++ (sourceCmd plat ++ common_settings ise_path ver "ISE_DS" ++ "\n")) ++ "")
            ++ stageTpl
          = (scriptHdr plat ++ (sourceCmd plat ++ common_settings ise_path ver "ISE_DS" ++ "\n"))
            ++ String.mk (segsTpl stageSegs) :=
        strDataInj (by simp [String.data_append, mkData, stage_decomp, strDataEmpty,
          List.append_assoc])
      rw [hnf, pyFmt_two _ _ _ hbf hsegs]
      simp only [htail]
      refine congrArg Except.ok (strDataInj ?_)
      simp [String.data_append, mkData, strDataEmpty, render_stage, List.append_assoc]
    · simp only [mkBuildScript, if_true, if_neg hm]
      have hsegs : ∀ s ∈ (xstSegs ++ stageSegs), segOk [("build_name", build_name),
          ("ngdbuild_opt", ngdbuild_opt), ("bitgen_opt", bitgen_opt), ("ext", "ngc"),
          ("par_opt", par_opt), ("map_opt", map_opt)] s := segsOkB_ok rfl
      have hnf : ((scriptHdr plat
            ++ (sourceCmd plat ++ common_settings ise_path ver "ISE_DS" ++ "\n"))
            ++ xstChunkTpl) ++ stageTpl
          = (scriptHdr plat ++ (sourceCmd plat ++ common_settings ise_path ver "ISE_DS" ++ "\n"))
            ++ String.mk (segsTpl (xstSegs ++ stageSegs)) :=
        strDataInj (by simp [String.data_append, mkData, comb_decomp, strDataEmpty,
          List.append_assoc])
      rw [hnf, pyFmt_two _ _ _ hbf hsegs]
      simp only [htail]
      refine congrArg Except.ok (strDataInj ?_)
      simp [String.data_append, mkData, strDataEmpty, render_append, render_xst, render_stage,
        List.append_assoc]

/-! ### Lemmas about the constraint-file builder -/

theorem format_ucf_closed (sig pin : String) (others : List Constraint) (res : Resname)
    (toks : List String) (h : fmtTokens others = .ok toks) :
    _format_ucf sig pin others res =
      .ok ("NET \"" ++ sig ++ "\" " ++ pyJoin " | " (("LOC=" ++ pin) :: toks)
        ++ "; # " ++ fmtResname res ++ "\n") := by
  unfold _format_ucf
  have h2 : fmtTokens (.pins [pin] :: others) = .ok (("LOC=" ++ pin) :: toks) := by
    simp [fmtTokens, _format_constraint, h]
  rw [h2]

theorem fmtTokens_other_mid (pre post : List Constraint) :
    fmtTokens (pre ++ .other :: post) = fmtTokens (pre ++ post) := by
  induction pre with
  | nil => simp [fmtTokens, _format_constraint]
  | cons c cs ih =>
    simp only [List.cons_append, fmtTokens, List.append_eq]
    rw [ih]

theorem ucfBits_closed (sig : String) (others : List Constraint) (res : Resname)
    (toks : List String) (h : fmtTokens others = .ok toks) :
    ∀ (pins : List String) (n : Nat),
      ucfBits sig others res n pins =
        .ok (strConcat ((List.enumFrom n pins).map (fun ip =>
          "NET \"" ++ (sig ++ "(" ++ toString ip.1 ++ ")") ++ "\" "
            ++ pyJoin " | " (("LOC=" ++ ip.2) :: toks) ++ "; # " ++ fmtResname res ++ "\n"))) := by
  intro pins
  induction pins with
  | nil => intro n; simp [ucfBits, List.enumFrom, strConcat]
  | cons p ps ih =>
    intro n
    simp only [ucfBits]
    rw [format_ucf_closed _ _ _ _ _ h, ih (n + 1)]
    simp [List.enumFrom, strConcat]

theorem countNl_append (a b : String) : countNl (a ++ b) = countNl a + countNl b := by
  simp [countNl, String.data_append, List.count_append]

theorem countNl_pyJoin (toks : List String) (h : ∀ t ∈ toks, countNl t = 0) :
    countNl (pyJoin " | " toks) = 0 := by
  induction toks with
  | nil => decide
  | cons t ts ih =>
    cases ts with
    | nil => exact h t (List.mem_cons_self t [])
    | cons u us =>
      rw [show pyJoin " | " (t :: u :: us) = t ++ " | " ++ pyJoin " | " (u :: us) from rfl,
        countNl_append, countNl_append, h t (List.mem_cons_self t (u :: us)),
        ih (fun x hx => h x (List.mem_cons_of_mem t hx))]
      decide

theorem digitChar_ne_nl (m : Nat) : Nat.digitChar m ≠ '\n' := by
  rcases Nat.lt_or_ge m 16 with h | h
  · interval_cases m <;> decide
  · have h0 : Nat.digitChar m = '*' := by
      unfold Nat.digitChar
      repeat rw [if_neg (by omega)]
    rw [h0]; decide

theorem toDigitsCore_ne_nl (b : Nat) (fuel : Nat) :
    ∀ (n : Nat) (acc : List Char), (∀ c ∈ acc, c ≠ '\n') →
      ∀ c ∈ Nat.toDigitsCore b fuel n acc, c ≠ '\n' := by
  induction fuel with
  | zero =>
    intro n acc hacc c hc
    exact hacc c hc
  | succ f ih =>
    intro n acc hacc c hc
    simp only [Nat.toDigitsCore] at hc
    split at hc
    · rcases List.mem_cons.mp hc with rfl | hmem
      · exact digitChar_ne_nl _
      · exact hacc c hmem
    · refine ih (n / b) (Nat.digitChar (n % b) :: acc) ?_ c hc
      intro d hd
      rcases List.mem_cons.mp hd with rfl | hmem
      · exact digitChar_ne_nl _
      · exact hacc d hmem

theorem countNl_natToString (n : Nat) : countNl (toString n) = 0 := by
  have hd : (toString n).data = Nat.toDigits 10 n := rfl
  have h : ∀ c ∈ Nat.toDigits 10 n, c ≠ '\n' :=
    toDigitsCore_ne_nl 10 (n + 1) n [] (by intro c hc; cases hc)
  simp only [countNl, hd]
  exact List.count_eq_zero.mpr (fun hmem => h _ hmem rfl)

theorem countNl_ucfLine (name pin : String) (toks : List String) (res : Resname)
    (hn : countNl name = 0) (hp : countNl pin = 0) (ht : ∀ t ∈ toks, countNl t = 0)
    (hr : countNl (fmtResname res) = 0) :
    countNl ("NET \"" ++ name ++ "\" " ++ pyJoin " | " (("LOC=" ++ pin) :: toks)
      ++ "; # " ++ fmtResname res ++ "\n") = 1 := by
  have hj : countNl (pyJoin " | " (("LOC=" ++ pin) :: toks)) = 0 := by
    refine countNl_pyJoin _ ?_
    intro t ht2
    rcases List.mem_cons.mp ht2 with rfl | hmem
    · rw [countNl_append, hp]; decide
    · exact ht t hmem
  rw [countNl_append, countNl_append, countNl_append, countNl_append, countNl_append,
    countNl_append, hn, hj, hr]
  decide

theorem countNl_strConcat_map {α : Type} (f : α → String) (l : List α)
    (h : ∀ x ∈ l, countNl (f x) = 1) : countNl (strConcat (l.map f)) = l.length := by
  induction l with
  | nil => simp only [List.map_nil, List.length_nil]; decide
  | cons x xs ih =>
    rw [List.map_cons, show strConcat (f x :: xs.map f) = f x ++ strConcat (xs.map f) from rfl,
      countNl_append, h x (List.mem_cons_self x xs),
      ih (fun y hy => h y (List.mem_cons_of_mem x hy))]
    simp [Nat.add_comm]

theorem mem_of_mem_enumFrom {α : Type} {x : Nat × α} :
    ∀ {l : List α} {n : Nat}, x ∈ List.enumFrom n l → x.2 ∈ l := by
  intro l
  induction l with
  | nil => intro n h; cases h
  | cons a as ih =>
    intro n h
    rcases List.mem_cons.mp h with rfl | hmem
    · exact List.mem_cons_self a as
    · exact List.mem_cons_of_mem a (ih hmem)

theorem formatConstraint_err {c : Constraint} {e : Err}
    (h : _format_constraint c = .error e) : e = .indexError := by
  cases c with
  | pins ids =>
    cases ids with
    | nil => simp [_format_constraint] at h; exact h.symm
    | cons i rest => simp [_format_constraint] at h
  | iostandard n => simp [_format_constraint] at h
  | drive s => simp [_format_constraint] at h
  | misc m => simp [_format_constraint] at h
  | other => simp [_format_constraint] at h

theorem fmtTokens_err : ∀ {cs : List Constraint} {e : Err},
    fmtTokens cs = .error e → e = .indexError := by
  intro cs
  induction cs with
  | nil => intro e h; simp [fmtTokens] at h
  | cons c cs ih =>
    intro e h
    simp only [fmtTokens] at h
    cases hfc : _format_constraint c with
    | error e2 =>
      rw [hfc] at h
      simp only [Except.error.injEq] at h
      subst h
      exact formatConstraint_err hfc
    | ok o =>
      rw [hfc] at h
      cases o with
      | none => exact ih h
      | some t =>
        cases hrec : fmtTokens cs with
        | error e2 =>
          rw [hrec] at h
          simp only [Except.error.injEq] at h
          subst h
          exact ih hrec
        | ok ts => rw [hrec] at h; simp at h

theorem format_ucf_err {sig pin : String} {others : List Constraint} {res : Resname} {e : Err}
    (h : _format_ucf sig pin others res = .error e) : e = .indexError := by
  unfold _format_ucf at h
  cases hft : fmtTokens (.pins [pin] :: others) with
  | error e2 =>
    rw [hft] at h
    simp only [Except.error.injEq] at h
    subst h
    exact fmtTokens_err hft
  | ok ts => rw [hft] at h; simp at h

theorem ucfBits_err {sig : String} {others : List Constraint} {res : Resname} :
    ∀ {pins : List String} {n : Nat} {e : Err},
      ucfBits sig others res n pins = .error e → e = .indexError := by
  intro pins
  induction pins with
  | nil => intro n e h; simp [ucfBits] at h
  | cons p ps ih =>
    intro n e h
    simp only [ucfBits] at h
    cases hfu : _format_ucf (sig ++ "(" ++ toString n ++ ")") p others res with
    | error e2 =>
      rw [hfu] at h
      simp only [Except.error.injEq] at h
      subst h
      exact format_ucf_err hfu
    | ok line =>
      rw [hfu] at h
      cases hrec : ucfBits sig others res (n + 1) ps with
      | error e2 =>
        rw [hrec] at h
        simp only [Except.error.injEq] at h
        subst h
        exact ih hrec
      | ok r => rw [hrec] at h; simp at h

theorem ucfEntry_err {e : NamedSC} {er : Err} (h : ucfEntry e = .error er) :
    er = .indexError := by
  unfold ucfEntry at h
  by_cases hlen : 1 < e.pins.length
  · rw [if_pos hlen] at h
    exact ucfBits_err h
  · rw [if_neg hlen] at h
    cases hpp : e.pins with
    | nil =>
      rw [hpp] at h
      simp only [Except.error.injEq] at h
      exact h.symm
    | cons p ps =>
      rw [hpp] at h
      exact format_ucf_err h

theorem ucfAll_err : ∀ {l : List NamedSC} {e : Err}, ucfAll l = .error e → e = .indexError := by
  intro l
  induction l with
  | nil => intro e h; simp [ucfAll] at h
  | cons a l ih =>
    intro e h
    simp only [ucfAll] at h
    cases ha : ucfEntry a with
    | error e2 =>
      rw [ha] at h
      simp only [Except.error.injEq] at h
      subst h
      exact ucfEntry_err ha
    | ok line =>
      rw [ha] at h
      cases hrec : ucfAll l with
      | error e2 =>
        rw [hrec] at h
        simp only [Except.error.injEq] at h
        subst h
        exact ih hrec
      | ok r => rw [hrec] at h; simp at h

theorem ucfAll_err_of_empty {l : List NamedSC} (h : ∃ e ∈ l, e.pins = []) :
    ucfAll l = .error .indexError := by
  induction l with
  | nil => rcases h with ⟨e, he, _⟩; cases he
  | cons a l ih =>
    rcases h with ⟨e, he, hpe⟩
    rcases List.mem_cons.mp he with rfl | hmem
    · have hent : ucfEntry e = .error .indexError := by
        unfold ucfEntry
        rw [hpe]
        simp
      simp only [ucfAll]
      rw [hent]
    · cases ha : ucfEntry a with
      | error er =>
        have her : er = .indexError := ucfEntry_err ha
        simp only [ucfAll]
        rw [ha, her]
      | ok line =>
        simp only [ucfAll]
        rw [ha, ih ⟨e, hmem, hpe⟩]

theorem fmtTokens_ok_of : ∀ (cs : List Constraint),
    (∀ c ∈ cs, ∀ ids, c = .pins ids → ids ≠ []) → ∃ ts, fmtTokens cs = .ok ts := by
  intro cs
  induction cs with
  | nil => exact fun _ => ⟨[], rfl⟩
  | cons c cs ih =>
    intro h
    obtain ⟨ts, hts⟩ := ih (fun x hx => h x (List.mem_cons_of_mem c hx))
    cases c with
    | pins ids =>
      cases ids with
      | nil => exact absurd rfl (h (.pins []) (List.mem_cons_self _ _) [] rfl)
      | cons i r =>
        exact ⟨("LOC=" ++ i) :: ts, by simp [fmtTokens, _format_constraint, hts]⟩
    | iostandard n =>
      exact ⟨("IOSTANDARD=" ++ n) :: ts, by simp [fmtTokens, _format_constraint, hts]⟩
    | drive s =>
      exact ⟨("DRIVE=" ++ toString s) :: ts, by simp [fmtTokens, _format_constraint, hts]⟩
    | misc m => exact ⟨m :: ts, by simp [fmtTokens, _format_constraint, hts]⟩
    | other => exact ⟨ts, by simp [fmtTokens, _format_constraint, hts]⟩

theorem ucfEntry_ok_of (e : NamedSC) (hp : e.pins ≠ [])
    (h : ∀ c ∈ e.others, ∀ ids, c = .pins ids → ids ≠ []) : ∃ s, ucfEntry e = .ok s := by
  obtain ⟨ts, hts⟩ := fmtTokens_ok_of e.others h
  unfold ucfEntry
  by_cases hlen : 1 < e.pins.length
  · rw [if_pos hlen]
    exact ⟨_, ucfBits_closed e.sig e.others e.resname ts hts e.pins 0⟩
  · rw [if_neg hlen]
    cases hpp : e.pins with
    | nil => exact absurd hpp hp
    | cons p ps => exact ⟨_, format_ucf_closed e.sig p e.others e.resname ts hts⟩

theorem ucfAll_ok_of : ∀ (l : List NamedSC),
    (∀ e ∈ l, e.pins ≠ [] ∧ ∀ c ∈ e.others, ∀ ids, c = .pins ids → ids ≠ []) →
      ∃ s, ucfAll l = .ok s := by
  intro l
  induction l with
  | nil => exact fun _ => ⟨"", rfl⟩
  | cons a l ih =>
    intro h
    obtain ⟨ha1, ha2⟩ := h a (List.mem_cons_self a l)
    obtain ⟨line, hline⟩ := ucfEntry_ok_of a ha1 ha2
    obtain ⟨r, hr⟩ := ih (fun x hx => h x (List.mem_cons_of_mem a hx))
    exact ⟨line ++ r, by simp [ucfAll, hline, hr]⟩

/-! ### The claims -/

/-- Claim C1: for a named signal constraint handed to `_build_ucf`, a pin
list of length N > 1 yields exactly N constraint lines, the i-th using net
name `sig(i)` and the i-th pin as the placement, while a pin list of length
1 yields exactly one line using the bare signal name and the sole pin.
Line counts are stated as newline counts under the hypothesis that the
inputs themselves contain no newline. -/
theorem claim_C1 (sig : String) (pins : List String) (others : List Constraint)
    (res : Resname) (toks : List String)
    (htoks : fmtTokens others = .ok toks)
    (hsig : countNl sig = 0) (hpins : ∀ p ∈ pins, countNl p = 0)
    (htok : ∀ t ∈ toks, countNl t = 0) (hres : countNl (fmtResname res) = 0) :
    (1 < pins.length →
      _build_ucf [⟨sig, pins, others, res⟩] [] =
        .ok (strConcat (pins.enum.map (fun ip =>
          "NET \"" ++ (sig ++ "(" ++ toString ip.1 ++ ")") ++ "\" "
            ++ pyJoin " | " (("LOC=" ++ ip.2) :: toks) ++ "; # " ++ fmtResname res ++ "\n"))) ∧
      ∀ s, _build_ucf [⟨sig, pins, others, res⟩] [] = .ok s → countNl s = pins.length) ∧
    (∀ p, pins = [p] →
      _build_ucf [⟨sig, pins, others, res⟩] [] =
        .ok ("NET \"" ++ sig ++ "\" " ++ pyJoin " | " (("LOC=" ++ p) :: toks)
          ++ "; # " ++ fmtResname res ++ "\n") ∧
      countNl ("NET \"" ++ sig ++ "\" " ++ pyJoin " | " (("LOC=" ++ p) :: toks)
        ++ "; # " ++ fmtResname res ++ "\n") = 1) := by
  have hline1 : ∀ ip ∈ pins.enum,
      countNl ("NET \"" ++ (sig ++ "(" ++ toString ip.1 ++ ")") ++ "\" "
        ++ pyJoin " | " (("LOC=" ++ ip.2) :: toks) ++ "; # " ++ fmtResname res ++ "\n") = 1 := by
    intro ip hip
    refine countNl_ucfLine _ _ _ _ ?_ ?_ htok hres
    · rw [countNl_append, countNl_append, countNl_append, hsig, countNl_natToString]
      decide
    · exact hpins ip.2 (mem_of_mem_enumFrom hip)
  constructor
  · intro hlen
    have hent : ucfEntry ⟨sig, pins, others, res⟩ =
        .ok (strConcat ((List.enumFrom 0 pins).map (fun ip =>
          "NET \"" ++ (sig ++ "(" ++ toString ip.1 ++ ")") ++ "\" "
            ++ pyJoin " | " (("LOC=" ++ ip.2) :: toks) ++ "; # "
            ++ fmtResname res ++ "\n"))) := by
      unfold ucfEntry
      rw [if_pos hlen]
      exact ucfBits_closed sig others res toks htoks pins 0
    have hmain : _build_ucf [⟨sig, pins, others, res⟩] [] =
        .ok (strConcat (pins.enum.map (fun ip =>
          "NET \"" ++ (sig ++ "(" ++ toString ip.1 ++ ")") ++ "\" "
            ++ pyJoin " | " (("LOC=" ++ ip.2) :: toks) ++ "; # "
            ++ fmtResname res ++ "\n"))) := by
      unfold _build_ucf ucfAll
      rw [hent]
      simp [ucfAll, strAppendEmpty, List.enum]
    refine ⟨hmain, ?_⟩
    intro s hs
    rw [hmain] at hs
    injection hs with hs2
    rw [← hs2, countNl_strConcat_map _ _ hline1, List.enum_length]
  · intro p hp
    subst hp
    have hent : ucfEntry ⟨sig, [p], others, res⟩ =
        .ok ("NET \"" ++ sig ++ "\" " ++ pyJoin " | " (("LOC=" ++ p) :: toks)
          ++ "; # " ++ fmtResname res ++ "\n") := by
      unfold ucfEntry
      rw [if_neg (by simp)]
      exact format_ucf_closed sig p others res toks htoks
    constructor
    · unfold _build_ucf ucfAll
      rw [hent]
      simp [ucfAll, strAppendEmpty]
    · exact countNl_ucfLine sig p toks res hsig (hpins p (List.mem_cons_self p [])) htok hres

/-- Witness for C1 at the two-bit signal `led` with pins `A1, A2` and the
one-bit signal `clk` with pin `P17`. -/
theorem claim_C1_witness :
    _build_ucf [⟨"led", ["A1", "A2"], [], ("cmp", 0, some "leds")⟩] [] =
      .ok "NET \"led(0)\" LOC=A1; # cmp:0.leds\nNET \"led(1)\" LOC=A2; # cmp:0.leds\n" ∧
    _build_ucf [⟨"clk", ["P17"], [.iostandard "LVCMOS33"], ("cmp", 0, none)⟩] [] =
      .ok "NET \"clk\" LOC=P17 | IOSTANDARD=LVCMOS33; # cmp:0\n" := by
  constructor
  · have h := (claim_C1 "led" ["A1", "A2"] [] ("cmp", 0, some "leds") [] rfl rfl
      (by decide) (by decide) rfl).1 (by decide)
    exact h.1.trans (by decide)
  · have h := (claim_C1 "clk" ["P17"] [.iostandard "LVCMOS33"] ("cmp", 0, none)
      ["IOSTANDARD=LVCMOS33"] (by decide) rfl (by decide) (by decide) rfl).2 "P17" rfl
    exact h.1.trans (by decide)

/-- Claim C2: every constraint line is the placement token followed by the
formatted `other_constraints` in order, joined by `" | "`, and the
placement token for a pin sequence is `LOC=` plus the first identifier,
regardless of how many identifiers are present. -/
theorem claim_C2 :
    (∀ (p : String) (rest : List String),
      _format_constraint (.pins (p :: rest)) = .ok (some ("LOC=" ++ p))) ∧
    (∀ (sig pin : String) (others : List Constraint) (res : Resname) (toks : List String),
      fmtTokens others = .ok toks →
      _format_ucf sig pin others res =
        .ok ("NET \"" ++ sig ++ "\" " ++ pyJoin " | " (("LOC=" ++ pin) :: toks)
          ++ "; # " ++ fmtResname res ++ "\n")) :=
  ⟨fun _ _ => rfl, fun sig pin others res toks h => format_ucf_closed sig pin others res toks h⟩

/-- Witness for C2 on the `clk` scenario line. -/
theorem claim_C2_witness :
    _format_ucf "clk" "P17" [.iostandard "LVCMOS33"] ("cmp", 0, none) =
      .ok "NET \"clk\" LOC=P17 | IOSTANDARD=LVCMOS33; # cmp:0\n" := by
  have h := claim_C2.2 "clk" "P17" [.iostandard "LVCMOS33"] ("cmp", 0, none)
    ["IOSTANDARD=LVCMOS33"] (by decide)
  exact h.trans (by decide)

/-- Claim C8: an unrecognized constraint variant formats to no token and no
error; the constraint line for a signal carrying such a constraint is still
emitted, with that constraint contributing nothing. -/
theorem claim_C8 :
    _format_constraint .other = .ok none ∧
    ∀ (sig pin : String) (pre post : List Constraint) (res : Resname),
      _format_ucf sig pin (pre ++ .other :: post) res = _format_ucf sig pin (pre ++ post) res := by
  refine ⟨rfl, fun sig pin pre post res => ?_⟩
  unfold _format_ucf
  rw [show (Constraint.pins [pin] :: (pre ++ .other :: post))
      = ((Constraint.pins [pin] :: pre) ++ .other :: post) from rfl,
    fmtTokens_other_mid]
  rfl

/-- Claim C9: `_build_ucf` indexes `pins[0]`, so an entry with an empty pin
sequence always reaches the `IndexError` branch, and when every pin
sequence (also inside `Pins` constraints of `other_constraints`) is
nonempty, no indexing error can occur. -/
theorem claim_C9 (named_sc : List NamedSC) (named_pc : List String) :
    ((∃ e ∈ named_sc, e.pins = []) → _build_ucf named_sc named_pc = .error .indexError) ∧
    ((∀ e ∈ named_sc, e.pins ≠ [] ∧ ∀ c ∈ e.others, ∀ ids, c = .pins ids → ids ≠ []) →
      ∃ s, _build_ucf named_sc named_pc = .ok s) := by
  constructor
  · intro h
    unfold _build_ucf
    rw [ucfAll_err_of_empty h]
  · intro h
    obtain ⟨s, hs⟩ := ucfAll_ok_of named_sc h
    unfold _build_ucf
    rw [hs]
    exact ⟨_, rfl⟩

/-- Witness for C9: an empty pin list reaches the error branch, a nonempty
one does not. -/
theorem claim_C9_witness :
    _build_ucf [⟨"led", [], [], ("cmp", 0, none)⟩] [] = .error .indexError ∧
    ∃ s, _build_ucf [⟨"clk", ["P17"], [], ("cmp", 0, none)⟩] [] = .ok s := by
  constructor
  · exact (claim_C9 [⟨"led", [], [], ("cmp", 0, none)⟩] []).1 ⟨_, List.mem_cons_self _ _, rfl⟩
  · refine (claim_C9 [⟨"clk", ["P17"], [], ("cmp", 0, none)⟩] []).2 ?_
    intro e he
    rcases List.mem_cons.mp he with rfl | hmem
    · exact ⟨by simp, fun c hc => absurd hc (List.not_mem_nil c)⟩
    · cases hmem

/-- Claim C3: a non-zero exit status of an invoked external process (the
yosys run or the generated pipeline script) raises the external-tool
failure (`OSError`) immediately and a zero exit status raises no error; in
the open-synthesizer build mode a failing yosys run aborts the build before
any later stage: no constraint file is written and no further process is
invoked. -/
theorem claim_C3 {NS : Type} (exitf : List String → Int) (device : String)
    (sources : List Source) (vincpaths : List String) (build_name : String) (w : World)
    (plat ise_path : String) (source : Bool) (isemode : String)
    (ngdbuild_opt bitgen_opt ise_commands map_opt par_opt : String) (ver : Option String)
    (self : XilinxISEToolchain) (platform : Platform NS) (build_dir tp : String)
    (src : Bool) (cwd0 : String) :
    ((exitf ["yosys", build_name ++ ".ys"] ≠ 0 →
        (_run_yosys exitf device sources vincpaths build_name w).1 = .error .oserror) ∧
      (exitf ["yosys", build_name ++ ".ys"] = 0 →
        (_run_yosys exitf device sources vincpaths build_name w).1 = .ok ())) ∧
    (∀ script, mkBuildScript plat build_name ise_path source isemode ngdbuild_opt bitgen_opt
          ise_commands map_opt par_opt ver = .ok script →
      ((exitf (shellOf plat ++ ["build_" ++ build_name ++ scriptExt plat]) ≠ 0 →
          (_run_ise exitf plat build_name ise_path source isemode ngdbuild_opt bitgen_opt
            ise_commands map_opt par_opt ver w).1 = .error .oserror) ∧
        (exitf (shellOf plat ++ ["build_" ++ build_name ++ scriptExt plat]) = 0 →
          (_run_ise exitf plat build_name ise_path source isemode ngdbuild_opt bitgen_opt
            ise_commands map_opt par_opt ver w).1 = .ok ()))) ∧
    (exitf ["yosys", build_name ++ ".ys"] ≠ 0 →
      (self.build exitf plat platform build_dir build_name (some tp) (some src) true .yosys
          ⟨cwd0, [], []⟩).1 = .error .oserror ∧
      ((self.build exitf plat platform build_dir build_name (some tp) (some src) true .yosys
          ⟨cwd0, [], []⟩).2.2).calls = [["yosys", build_name ++ ".ys"]] ∧
      ((self.build exitf plat platform build_dir build_name (some tp) (some src) true .yosys
          ⟨cwd0, [], []⟩).2.2).files.map Prod.fst
        = [build_name ++ ".v", build_name ++ ".ys"]) := by
  refine ⟨⟨?_, ?_⟩, ?_, ?_⟩
  · intro h
    simp [_run_yosys, subprocessCall, writeToFile, h]
  · intro h
    simp [_run_yosys, subprocessCall, writeToFile, h]
  · intro script hscript
    constructor
    · intro h
      simp [_run_ise, hscript, subprocessCall, writeToFile, h]
    · intro h
      simp [_run_ise, hscript, subprocessCall, writeToFile, h]
  · intro h
    refine ⟨?_, ?_, ?_⟩ <;>
      simp [XilinxISEToolchain.build, buildBody, _run_yosys, subprocessCall, writeToFile,
        chdir, mkdirNoerror, h]

/-- Witness for C3: a failing yosys run errors and stops the build after
the `.v` and `.ys` writes; a zero-status pipeline run raises no error. -/
theorem claim_C3_witness :
    (_run_yosys exitYosysFail "xc7a35t" [] [] "top" ⟨"/", [], []⟩).1 = .error .oserror ∧
    (_run_ise (fun _ => 0) "linux" "top" "/opt/Xilinx" false "xst"
        "" "-g Binary:Yes -w" "" "-ol high -w" "-ol high -w" none ⟨"/", [], []⟩).1 = .ok () ∧
    ((XilinxISEToolchain.new.build exitYosysFail "linux" demoPlatform "build" "top"
        (some "/opt/Xilinx") (some false) true .yosys ⟨"/", [], []⟩).1 = .error .oserror ∧
      ((XilinxISEToolchain.new.build exitYosysFail "linux" demoPlatform "build" "top"
        (some "/opt/Xilinx") (some false) true .yosys ⟨"/", [], []⟩).2.2).calls
        = [["yosys", "top.ys"]] ∧
      ((XilinxISEToolchain.new.build exitYosysFail "linux" demoPlatform "build" "top"
        (some "/opt/Xilinx") (some false) true .yosys ⟨"/", [], []⟩).2.2).files.map Prod.fst
        = ["top.v", "top.ys"]) := by
  refine ⟨?_, ?_, ?_⟩
  · exact (claim_C3 exitYosysFail "xc7a35t" [] [] "top" ⟨"/", [], []⟩ "linux"
      "/opt/Xilinx" false "xst" "" "-g Binary:Yes -w" "" "-ol high -w" "-ol high -w" none
      XilinxISEToolchain.new demoPlatform "build" "/opt/Xilinx" false "/").1.1 (by decide)
  · exact ((claim_C3 (fun _ => 0) "xc7a35t" [] [] "top" ⟨"/", [], []⟩ "linux"
      "/opt/Xilinx" false "xst" "" "-g Binary:Yes -w" "" "-ol high -w" "-ol high -w" none
      XilinxISEToolchain.new demoPlatform "build" "/opt/Xilinx" false "/").2.1
      "# Autogenerated by Migen\nset -e\n\nxst -ifn top.xst\n\nngdbuild  -uc top.ucf top.ngc top.ngd\nmap -ol high -w -o top_map.ncd top.ngd top.pcf\npar -ol high -w top_map.ncd top.ncd top.pcf\nbitgen -g Binary:Yes -w top.ncd top.bit\n"
      (by decide)).2 (by decide)
  · exact (claim_C3 exitYosysFail "xc7a35t" [] [] "top" ⟨"/", [], []⟩ "linux"
      "/opt/Xilinx" false "xst" "" "-g Binary:Yes -w" "" "-ol high -w" "-ol high -w" none
      XilinxISEToolchain.new demoPlatform "build" "/opt/Xilinx" false "/").2.2 (by decide)

/-- Claim C4: the generated pipeline build script contains the synthesis
(`xst`) invocation line exactly when the pipeline mode is not the
precompiled-netlist (`"edif"`) mode, always contains the
`ngdbuild`/`map`/`par`/`bitgen` invocations in that fixed order with their
option strings and build-name-derived artifact names, and ends with the
rendered trailing command template. -/
theorem claim_C4 (plat build_name ise_path : String) (source : Bool) (mode : String)
    (ngdbuild_opt bitgen_opt ise_commands map_opt par_opt : String) (ver : Option String)
    (tail : String)
    (hsettings : source = true → braceFree (common_settings ise_path ver "ISE_DS") = true)
    (htail : pyFmt ise_commands [("build_name", build_name)] = some tail) :
    mkBuildScript plat build_name ise_path source mode ngdbuild_opt bitgen_opt ise_commands
        map_opt par_opt ver =
      .ok (scriptHdr plat
        ++ (if source then sourceCmd plat ++ common_settings ise_path ver "ISE_DS" ++ "\n" else "")
        ++ (if mode = "edif" then "" else "\nxst -ifn " ++ build_name ++ ".xst\n")
        ++ ("\nngdbuild " ++ ngdbuild_opt ++ " -uc " ++ build_name ++ ".ucf " ++ build_name ++ "."
          ++ (if mode = "edif" then "edif" else "ngc") ++ " " ++ build_name ++ ".ngd\nmap "
          ++ map_opt ++ " -o " ++ build_name ++ "_map.ncd " ++ build_name ++ ".ngd " ++ build_name
          ++ ".pcf\npar " ++ par_opt ++ " " ++ build_name ++ "_map.ncd " ++ build_name ++ ".ncd "
          ++ build_name ++ ".pcf\nbitgen " ++ bitgen_opt ++ " " ++ build_name ++ ".ncd "
          ++ build_name ++ ".bit\n")
        ++ tail) :=
  mkBuildScript_eq plat build_name ise_path source mode ngdbuild_opt bitgen_opt ise_commands
    map_opt par_opt ver tail hsettings htail

/-- Witness for C4 at the default options, Linux host, `xst` mode. -/
theorem claim_C4_witness :
    mkBuildScript "linux" "top" "/opt/Xilinx" true "xst" "" "-g Binary:Yes -w" "" "-ol high -w"
        "-ol high -w" none =
      .ok "# Autogenerated by Migen\nset -e\nsource /opt/Xilinx/ISE_DS/settings64.sh\n\nxst -ifn top.xst\n\nngdbuild  -uc top.ucf top.ngc top.ngd\nmap -ol high -w -o top_map.ncd top.ngd top.pcf\npar -ol high -w top_map.ncd top.ncd top.pcf\nbitgen -g Binary:Yes -w top.ncd top.bit\n" := by
  have h := claim_C4 "linux" "top" "/opt/Xilinx" true "xst" "" "-g Binary:Yes -w" ""
    "-ol high -w" "-ol high -w" none "" (fun _ => by decide) rfl
  exact h.trans (by decide)

/-- Claim C5: after every call to `build` — whether the result is a value
or an error from any stage — the working directory equals its value before
the call. -/
theorem claim_C5 {NS : Type} (self : XilinxISEToolchain) (exitf : List String → Int)
    (plat : String) (platform : Platform NS) (build_dir build_name : String)
    (toolchain_path : Option String) (source : Option Bool) (run : Bool) (mode : Mode)
    (w : World) :
    ((self.build exitf plat platform build_dir build_name toolchain_path source run mode
      w).2.2).cwd = w.cwd := rfl

/-- Claim C7: for device `xc7a35t`, the single source
`("top.v", "verilog", "work")`, build name `top` and the default synthesis
options, the generated manifest is exactly `"verilog work top.v\n"` and the
generated run script contains the literal substrings `-ofn top.ngc` and
`-p xc7a35t`. -/
theorem claim_C7 :
    _build_xst_files "xc7a35t" [("top.v", "verilog", "work")] [] "top"
        XilinxISEToolchain.new.xst_opt ⟨"/build", [], []⟩ =
      (.ok (), ⟨"/build",
        [("top.prj", "verilog work top.v\n"),
         ("top.xst", "run\n-ifn top.prj\n-top top\n-ifmt MIXED\n-use_new_parser yes\n-opt_mode SPEED\n-register_balancing yes\n-ofn top.ngc\n-p xc7a35t\n")], []⟩) ∧
    strContains "run\n-ifn top.prj\n-top top\n-ifmt MIXED\n-use_new_parser yes\n-opt_mode SPEED\n-register_balancing yes\n-ofn top.ngc\n-p xc7a35t\n"
      "-ofn top.ngc" = true ∧
    strContains "run\n-ifn top.prj\n-top top\n-ifmt MIXED\n-use_new_parser yes\n-opt_mode SPEED\n-register_balancing yes\n-ofn top.ngc\n-p xc7a35t\n"
      "-p xc7a35t" = true := by
  decide

/-- Claim C6: in the open-synthesizer (`yosys`) build mode the
intermediate artifact fed to the pipeline tail uses the `edif` extension
(not `ngc`), and the translate-stage (`ngdbuild`) option string passed to
the pipeline is the configured option string with `-p <device>` appended;
witnessed by the files the build writes: the `.v` and `.ys` sources, the
`.ucf` constraint file, and a build script whose `ngdbuild` line consumes
`<build_name>.edif` with the extended option string, with no `xst` line. -/
theorem claim_C6 {NS : Type} (self : XilinxISEToolchain) (exitf : List String → Int)
    (plat : String) (platform : Platform NS) (build_dir build_name tp : String) (src : Bool)
    (cwd0 : String) (u : String) (tail : String)
    (hyos : exitf ["yosys", build_name ++ ".ys"] = 0)
    (hucf : _build_ucf (platform.resolve_signals platform.get_verilog.1).1
        (platform.resolve_signals platform.get_verilog.1).2 = .ok u)
    (hsettings : src = true → braceFree (common_settings tp none "ISE_DS") = true)
    (htail : pyFmt self.ise_commands [("build_name", build_name)] = some tail) :
    ((self.build exitf plat platform build_dir build_name (some tp) (some src) true .yosys
        ⟨cwd0, [], []⟩).2.2).files =
      [(build_name ++ ".v", platform.get_verilog.2),
       (build_name ++ ".ys",
        ysContents (unionSources platform.sources (build_name ++ ".v", "verilog", "work"))
          platform.verilog_include_paths build_name),
       (build_name ++ ".ucf", u),
       ("build_" ++ build_name ++ scriptExt plat,
        scriptHdr plat
          ++ (if src then sourceCmd plat ++ common_settings tp none "ISE_DS" ++ "\n" else "")
          ++ ("\nngdbuild " ++ (self.ngdbuild_opt ++ "-p " ++ platform.device) ++ " -uc "
            ++ build_name ++ ".ucf " ++ build_name ++ "." ++ "edif" ++ " " ++ build_name
            ++ ".ngd\nmap " ++ self.map_opt ++ " -o " ++ build_name ++ "_map.ncd "
            ++ build_name ++ ".ngd " ++ build_name ++ ".pcf\npar " ++ self.par_opt ++ " "
            ++ build_name ++ "_map.ncd " ++ build_name ++ ".ncd " ++ build_name
            ++ ".pcf\nbitgen " ++ self.bitgen_opt ++ " " ++ build_name ++ ".ncd "
            ++ build_name ++ ".bit\n")
          ++ tail)] := by
  have hscript := mkBuildScript_eq plat build_name tp src "edif"
    (self.ngdbuild_opt ++ "-p " ++ platform.device) self.bitgen_opt self.ise_commands
    self.map_opt self.par_opt none tail hsettings htail
  rw [if_pos rfl, if_pos rfl] at hscript
  rw [strAppendEmpty (scriptHdr plat
    ++ (if src then sourceCmd plat ++ common_settings tp none "ISE_DS" ++ "\n" else ""))]
    at hscript
  simp [XilinxISEToolchain.build, buildBody, ucfAndRun, _run_yosys, _run_ise,
    writeToFile, subprocessCall, chdir, mkdirNoerror, hyos, hucf, hscript]

/-- Witness for C6: the default toolchain on a Linux host in yosys mode
with the demo platform. -/
theorem claim_C6_witness :
    ((XilinxISEToolchain.new.build (fun _ => 0) "linux" demoPlatform "build" "top"
        (some "/opt/Xilinx") (some false) true .yosys ⟨"/", [], []⟩).2.2).files =
      [("top.v", "module top();\nendmodule\n"),
       ("top.ys", "read_verilog top.v\nhierarchy -check -top top\nproc; memory; opt; fsm; opt\nsynth_xilinx -top top -edif top.edif"),
       ("top.ucf", "NET \"clk\" LOC=P17; # cmp:0\n"),
       ("build_top.sh", "# Autogenerated by Migen\nset -e\n\nngdbuild -p xc7a35t -uc top.ucf top.edif top.ngd\nmap -ol high -w -o top_map.ncd top.ngd top.pcf\npar -ol high -w top_map.ncd top.ncd top.pcf\nbitgen -g Binary:Yes -w top.ncd top.bit\n")] := by
  have h := claim_C6 XilinxISEToolchain.new (fun _ => 0) "linux" demoPlatform
    "build" "top" "/opt/Xilinx" false "/" "NET \"clk\" LOC=P17; # cmp:0\n" "" rfl (by decide)
    (fun hc => absurd hc (by decide)) rfl
  exact h.trans (by decide)

/-- Claim C10: `build` leaves every configured option field of the
toolchain object unchanged in every mode; in particular the device option
appended in the open-synthesizer mode only affects the local copy of the
translate options. -/
theorem claim_C10 {NS : Type} (self : XilinxISEToolchain) (exitf : List String → Int)
    (plat : String) (platform : Platform NS) (build_dir build_name : String)
    (toolchain_path : Option String) (source : Option Bool) (run : Bool) (mode : Mode)
    (w : World) :
    (self.build exitf plat platform build_dir build_name toolchain_path source run mode
        w).2.1 = self ∧
    (self.build exitf plat platform build_dir build_name toolchain_path source run mode
        w).2.1.xst_opt = self.xst_opt ∧
    (self.build exitf plat platform build_dir build_name toolchain_path source run mode
        w).2.1.map_opt = self.map_opt ∧
    (self.build exitf plat platform build_dir build_name toolchain_path source run mode
        w).2.1.par_opt = self.par_opt ∧
    (self.build exitf plat platform build_dir build_name toolchain_path source run mode
        w).2.1.ngdbuild_opt = self.ngdbuild_opt ∧
    (self.build exitf plat platform build_dir build_name toolchain_path source run mode
        w).2.1.bitgen_opt = self.bitgen_opt ∧
    (self.build exitf plat platform build_dir build_name toolchain_path source run mode
        w).2.1.ise_commands = self.ise_commands :=
  ⟨rfl, rfl, rfl, rfl, rfl, rfl, rfl⟩

end MigenIse
